import Mathlib

/-!
Shallow embedding of the food-order-platform client cart core:
the cart & pricing engine, the versioned persistence adapter and the
order-tracking state machine (sources: the cart context module and the
application component of the frontend).

JavaScript numbers are modelled as exact rationals (ℚ); JSON-parseable
JavaScript values are modelled by the inductive type `JsValue` (with an
`undefined` constructor for the result of reading an absent object field).
The durable key-value store holds parsed JSON values: `JSON.parse ∘
JSON.stringify` is the identity on the values this program stores, and
two payloads serialize to byte-identical strings exactly when they are
structurally equal, so string-level storage is modelled at the value
level.
-/

/-- Model of a JavaScript value as produced by `JSON.parse`, plus
`undef` for `undefined` (the result of a missing-field access). -/
inductive JsValue where
  | undefined : JsValue
  | null : JsValue
  | bool : Bool → JsValue
  | num : ℚ → JsValue
  | str : String → JsValue
  | arr : List JsValue → JsValue
  | obj : List (String × JsValue) → JsValue

/-- JavaScript property access `v[k]`: a lookup in an object's fields,
`undefined` on any non-object (primitives box to objects without these
fields; the sources only access fields after a truthiness or
`isPlainObject` guard, so `null`/`undefined` bases never throw here). -/
def jsGet (v : JsValue) (k : String) : JsValue :=
  match v with
  | .obj fields =>
    match fields.lookup k with
    | some w => w
    | none => .undefined
  | _ => .undefined

/-- JavaScript `typeof`. -/
def jsTypeof (v : JsValue) : String :=
  match v with
  | .undefined => "undefined"
  | .null => "object"
  | .bool _ => "boolean"
  | .num _ => "number"
  | .str _ => "string"
  | .arr _ => "object"
  | .obj _ => "object"

/-- JavaScript truthiness (`Boolean(v)`); ℚ has no NaN, the only falsy
number is 0. -/
def jsTruthy (v : JsValue) : Bool :=
  match v with
  | .undefined => false
  | .null => false
  | .bool b => b
  | .num q => q != 0
  | .str s => s != ""
  | .arr _ => true
  | .obj _ => true

/-- Embeds `isPlainObject` from the cart module: a value that is an object and
not an array (and not null). -/
def isPlainObject (v : JsValue) : Bool :=
  match v with
  | .obj _ => true
  | _ => false

/-- Embeds `typeof x === "string" ? x : d` — extract a string with a default. -/
def jsStrOr (v : JsValue) (d : String) : String :=
  match v with
  | .str s => s
  | _ => d

/-- Embeds `typeof x === "number" ? x : d` — extract a number with a default. -/
def jsNumOr (v : JsValue) (d : ℚ) : ℚ :=
  match v with
  | .num q => q
  | _ => d

/-- A sanitized cart line, the shape produced by `sanitizeItems`:
`{ itemId, name, unitPrice, quantity, notes }`. -/
structure CartLine where
  itemId : String
  name : String
  unitPrice : ℚ
  quantity : ℚ
  notes : String
deriving DecidableEq, Repr

/-- A promo, the shape produced by `sanitizePromo` and
`computePromoFromCode`. -/
structure Promo where
  code : String
  discountRate : ℚ
deriving DecidableEq, Repr

/-- Embeds `sanitizeItems`: keep only plain objects with a string `itemId`,
defaulting wrong-typed `name`/`notes` to `""`, `unitPrice` to 0 and
`quantity` to 1. Non-array input yields `[]`. -/
def sanitizeItems (v : JsValue) : List CartLine :=
  match v with
  | .arr items =>
    (items.filter fun it =>
        isPlainObject it && jsTypeof (jsGet it "itemId") == "string").map
      fun it =>
        { itemId := jsStrOr (jsGet it "itemId") ""
          name := jsStrOr (jsGet it "name") ""
          unitPrice := jsNumOr (jsGet it "unitPrice") 0
          quantity := jsNumOr (jsGet it "quantity") 1
          notes := jsStrOr (jsGet it "notes") "" }
  | _ => []

/-- Embeds `sanitizePromo`: non-objects become `{code:"", discountRate:0}`;
otherwise the code defaults to `""` when not a string and the rate is
clamped by `Math.max(0, Math.min(0.5, discountRate))`. -/
def sanitizePromo (v : JsValue) : Promo :=
  if isPlainObject v then
    { code := jsStrOr (jsGet v "code") ""
      discountRate := max 0 (min (1/2) (jsNumOr (jsGet v "discountRate") 0)) }
  else
    { code := "", discountRate := 0 }

/-- Embeds `CART_STORAGE_KEY_V1`. -/
def CART_STORAGE_KEY_V1 : String := "food_order_cart_v1"

/-- Embeds `CART_STORAGE_KEY_V2`. -/
def CART_STORAGE_KEY_V2 : String := "food_order_cart_v2"

/-- Embeds `PROMO_STORAGE_KEY_V1`. -/
def PROMO_STORAGE_KEY_V1 : String := "food_order_promo_v1"

/-- The durable key-value store: `data` maps a key to the parsed JSON
value it holds (absent, or unparseable, keys map to `none`, matching
`safeParseJson`'s fallback path), and `fail k` says whether storage
access for key `k` throws (quota exceeded, access denied, ...). -/
structure Storage where
  data : String → Option JsValue
  fail : String → Bool

/-- Embeds `safeStorageGet` followed by `safeParseJson`: `none` when storage
throws or the key is absent/unparseable. -/
def safeStorageGet (st : Storage) (k : String) : Option JsValue :=
  if st.fail k then none else st.data k

/-- Embeds `safeStorageSet`: returns the updated store and whether the write
succeeded; a throwing store is left unchanged and reports `false`. -/
def safeStorageSet (st : Storage) (k : String) (v : JsValue) :
    Storage × Bool :=
  if st.fail k then (st, false)
  else ({ st with data := fun k2 => if k2 = k then some v else st.data k2 },
        true)

/-- The v1 fallback branch of `loadCartState`: read the items-only and
promo-only keys independently and sanitize each. -/
def loadCartStateLegacy (st : Storage) : List CartLine × Promo :=
  let items :=
    match safeStorageGet st CART_STORAGE_KEY_V1 with
    | some v => sanitizeItems v
    | none => []
  let promo :=
    match safeStorageGet st PROMO_STORAGE_KEY_V1 with
    | some v => sanitizePromo v
    | none => { code := "", discountRate := 0 }
  (items, promo)

/-- Embeds `loadCartState`: prefer the v2 envelope (when it is a plain object
whose `version` field is the number 2), else fall back to the two legacy
keys independently. -/
def loadCartState (st : Storage) : List CartLine × Promo :=
  match safeStorageGet st CART_STORAGE_KEY_V2 with
  | some parsed =>
    if isPlainObject parsed &&
        (match jsGet parsed "version" with
         | .num v => v == 2
         | _ => false) then
      (sanitizeItems (jsGet parsed "items"), sanitizePromo (jsGet parsed "promo"))
    else loadCartStateLegacy st
  | none => loadCartStateLegacy st

/-- JSON serialization of an in-memory sanitized cart line (the object
literal written by the persistence effect). -/
def encodeLine (l : CartLine) : JsValue :=
  .obj [("itemId", .str l.itemId), ("name", .str l.name),
        ("unitPrice", .num l.unitPrice), ("quantity", .num l.quantity),
        ("notes", .str l.notes)]

/-- JSON serialization of the items array (`JSON.stringify(items)`). -/
def encodeItems (items : List CartLine) : JsValue :=
  .arr (items.map encodeLine)

/-- JSON serialization of the promo (`JSON.stringify(promo)`). -/
def encodePromo (p : Promo) : JsValue :=
  .obj [("code", .str p.code), ("discountRate", .num p.discountRate)]

/-- The v2 envelope `{version, items, promo, savedAt}` written to the
current-version key. -/
def encodeEnvelope (items : List CartLine) (promo : Promo) (now : ℤ) :
    JsValue :=
  .obj [("version", .num 2), ("items", encodeItems items),
        ("promo", encodePromo promo), ("savedAt", .num now)]

/-- The process-local `lastPersistedRef`: `none` models the initial
`""`, which no serialized payload equals; `some (items, promo, savedAt)`
models the serialized string of the last successfully persisted payload
(serialization is injective, so byte-identical strings correspond to
structurally equal payloads). -/
structure PersistCache where
  last : Option (List CartLine × Promo × ℤ)
deriving DecidableEq

/-- The fresh-process persistence cache (`useRef("")`). -/
def initPersistCache : PersistCache := { last := none }

/-- Result of one run of the persistence effect. -/
structure SaveResult where
  cache : PersistCache
  storage : Storage
  /-- Set to `false` exactly when the byte-identical dedupe skipped the write. -/
  attempted : Bool

/-- The persistence effect of the cart provider: skip everything if the
serialized payload equals the last persisted one; otherwise write the v2
envelope, and only on success mirror the two legacy keys and update the
cache. -/
def saveCart (cache : PersistCache) (st : Storage) (items : List CartLine)
    (promo : Promo) (now : ℤ) : SaveResult :=
  if cache.last = some (items, promo, now) then
    { cache := cache, storage := st, attempted := false }
  else
    let (st1, okV2) :=
      safeStorageSet st CART_STORAGE_KEY_V2 (encodeEnvelope items promo now)
    if okV2 then
      let (st2, _) := safeStorageSet st1 CART_STORAGE_KEY_V1 (encodeItems items)
      let (st3, _) := safeStorageSet st2 PROMO_STORAGE_KEY_V1 (encodePromo promo)
      { cache := { last := some (items, promo, now) }, storage := st3,
        attempted := true }
    else
      { cache := cache, storage := st1, attempted := true }

/-- An in-memory cart line as the mutation API actually builds it:
`itemId` is always a string (guarded by `addItem`'s check and by
sanitization), but `name` and `unitPrice` are copied verbatim from the
candidate object and so may be any JavaScript value. -/
structure RawLine where
  itemId : String
  name : JsValue
  unitPrice : JsValue
  quantity : ℚ
  notes : String

/-- Embeds `itemsCount`: `items.reduce((sum, it) => sum + it.quantity, 0)`. -/
def itemsCount (items : List RawLine) : ℚ :=
  items.foldl (fun sum it => sum + it.quantity) 0

/-- Embeds `addItem(menuItem)`: no-op when `menuItem` is falsy or its `id` is
not a string; increment the matching line's quantity when one exists;
otherwise append a new line with quantity 1 (note: `menuItem.price` is
not validated). -/
def addItem (menuItem : JsValue) (prev : List RawLine) : List RawLine :=
  if !jsTruthy menuItem || jsTypeof (jsGet menuItem "id") != "string" then prev
  else
    let id := jsStrOr (jsGet menuItem "id") ""
    match prev.find? (fun p => p.itemId = id) with
    | some _ =>
      prev.map fun p =>
        if p.itemId = id then { p with quantity := p.quantity + 1 } else p
    | none =>
      prev ++ [{ itemId := id, name := jsGet menuItem "name",
                 unitPrice := jsGet menuItem "price", quantity := 1,
                 notes := "" }]

/-- Embeds `incrementItem(itemId)`. -/
def incrementItem (itemId : String) (prev : List RawLine) : List RawLine :=
  prev.map fun p =>
    if p.itemId = itemId then { p with quantity := p.quantity + 1 } else p

/-- Embeds `decrementItem(itemId)`: removes the line when its quantity is ≤ 1;
no-op when no line matches. -/
def decrementItem (itemId : String) (prev : List RawLine) : List RawLine :=
  match prev.find? (fun p => p.itemId = itemId) with
  | none => prev
  | some existing =>
    if existing.quantity ≤ 1 then prev.filter (fun p => p.itemId ≠ itemId)
    else
      prev.map fun p =>
        if p.itemId = itemId then { p with quantity := p.quantity - 1 } else p

/-- Embeds `removeItem(itemId)`. -/
def removeItem (itemId : String) (prev : List RawLine) : List RawLine :=
  prev.filter fun p => p.itemId ≠ itemId

/-- Embeds `computePromoFromCode`: trim and uppercase the raw code (a falsy
input is replaced by `""` first), then look it up in the static catalog
`OCEAN10 → 0.1`, `SHIPFREE → 0.06`; unknown codes keep the normalized
code with rate 0. -/
def computePromoFromCode (codeRaw : String) : Promo :=
  let code := codeRaw.trim.toUpper
  if code = "OCEAN10" then { code := code, discountRate := 1/10 }
  else if code = "SHIPFREE" then { code := code, discountRate := 6/100 }
  else { code := code, discountRate := 0 }

/-- Embeds `applyPromo(codeRaw)`: the promo state becomes
`computePromoFromCode(codeRaw)` wholesale. -/
def applyPromo (codeRaw : String) : Promo :=
  computePromoFromCode codeRaw

/-- Embeds `subtotal = items.reduce((sum, it) => sum + it.quantity * it.unitPrice, 0)`,
over carts of the numeric data model. -/
def subtotal (items : List CartLine) : ℚ :=
  items.foldl (fun sum it => sum + it.quantity * it.unitPrice) 0

/-- Embeds `promoDiscount = subtotal * promo.discountRate`. -/
def promoDiscount (items : List CartLine) (promo : Promo) : ℚ :=
  subtotal items * promo.discountRate

/-- Embeds `serviceFee = subtotal > 0 ? Math.min(3.5, Math.max(1.25, subtotal * 0.08)) : 0`. -/
def serviceFee (items : List CartLine) : ℚ :=
  if subtotal items > 0 then min (35/10) (max (125/100) (subtotal items * (8/100)))
  else 0

/-- Embeds `deliveryFee = subtotal > 0 ? 2.99 : 0`. -/
def deliveryFee (items : List CartLine) : ℚ :=
  if subtotal items > 0 then 299/100 else 0

/-- Embeds `taxable = Math.max(0, subtotal - promoDiscount)`;
`tax = taxable > 0 ? taxable * 0.0825 : 0`. -/
def tax (items : List CartLine) (promo : Promo) : ℚ :=
  let taxable := max 0 (subtotal items - promoDiscount items promo)
  if taxable > 0 then taxable * (825/10000) else 0

/-- Embeds `total = subtotal - promoDiscount + serviceFee + deliveryFee + tax`. -/
def total (items : List CartLine) (promo : Promo) : ℚ :=
  subtotal items - promoDiscount items promo + serviceFee items +
    deliveryFee items + tax items promo

/-- The order status strings used by the tracking simulation. -/
inductive OrderStatus where
  | Confirmed : OrderStatus
  | Preparing : OrderStatus
  | OutForDelivery : OrderStatus
  | Delivered : OrderStatus
  | Cancelled : OrderStatus
deriving DecidableEq, Repr

/-- The string each `OrderStatus` constructor stands for. -/
def statusText (s : OrderStatus) : String :=
  match s with
  | .Confirmed => "Confirmed"
  | .Preparing => "Preparing"
  | .OutForDelivery => "Out for delivery"
  | .Delivered => "Delivered"
  | .Cancelled => "Cancelled"

/-- The fields of the active order that the tracking tick reads or
writes (`createdAt` in epoch milliseconds); the remaining order fields
(id, customer data, items snapshot, pricing snapshot, meta) are never
touched by a tick. -/
structure TrackedOrder where
  createdAt : ℤ
  status : OrderStatus
  progress : ℤ
deriving DecidableEq, Repr

/-- Embeds `clamp(n, min, max) = Math.max(min, Math.min(max, n))`, at the
integer use site of the progress computation. -/
def clamp (n lo hi : ℤ) : ℤ :=
  max lo (min hi n)

/-- JavaScript `Math.round`: round half toward positive infinity. -/
def jsRound (q : ℚ) : ℤ :=
  ⌊q + 1/2⌋

/-- The elapsed-time → status chain of the tick:
0–30s Confirmed, 30–75s Preparing, 75–120s Out for delivery, then
Delivered. -/
def statusOf (elapsed : ℤ) : OrderStatus :=
  if elapsed < 30000 then .Confirmed
  else if elapsed < 75000 then .Preparing
  else if elapsed < 120000 then .OutForDelivery
  else .Delivered

/-- Embeds `progress = clamp(Math.round((elapsed / 120_000) * 100), 0, 100)`. -/
def progressOf (elapsed : ℤ) : ℤ :=
  clamp (jsRound ((elapsed : ℚ) / 120000 * 100)) 0 100

/-- One run of the interval callback's updater on a present order:
recompute `(status, progress)` from `elapsed = now - createdAt`; when
neither changed, return the previous object unchanged (the `Bool` is
`false` exactly on that no-update path, where the code returns `prev`
and React emits no state update). -/
def tickOrder (prev : TrackedOrder) (now : ℤ) : TrackedOrder × Bool :=
  let elapsed := now - prev.createdAt
  let status := statusOf elapsed
  let progress := progressOf elapsed
  if status = prev.status ∧ progress = prev.progress then (prev, false)
  else ({ prev with status := status, progress := progress }, true)

/-- The effect's timer guard: a timer is active only while an order
exists and its status is neither Delivered nor Cancelled (reaching a
terminal status clears the interval). -/
def timerActive (o : Option TrackedOrder) : Bool :=
  match o with
  | none => false
  | some ord => !(ord.status = .Delivered || ord.status = .Cancelled)

/-- One step of the tracking simulation as driven by the effect: a tick
runs only while the timer is active; otherwise the state is untouched. -/
def trackStep (o : Option TrackedOrder) (now : ℤ) : Option TrackedOrder :=
  if timerActive o then
    match o with
    | none => none
    | some prev => some (tickOrder prev now).1
  else o




/-- The example cart of the spec: one line at unit price 10, quantity 2. -/
def exampleCart : List CartLine :=
  [{ itemId := "item-1", name := "Example", unitPrice := 10, quantity := 2,
     notes := "" }]

/-- The empty promo `{code:"", discountRate:0}`. -/
def noPromo : Promo := { code := "", discountRate := 0 }

/-- A concrete order that has reached the terminal Delivered status. -/
def deliveredOrder : TrackedOrder :=
  { createdAt := 0, status := OrderStatus.Delivered, progress := 100 }

/-- A concrete non-terminal stored order whose status is ahead of its
elapsed time (as after a clock rollback or a hand-edited record). -/
def aheadOrder : TrackedOrder :=
  { createdAt := 0, status := OrderStatus.OutForDelivery, progress := 80 }

/-- Sanitized-equality on promos: the clamp that every load applies. -/
def promoClamp (p : Promo) : Promo :=
  { code := p.code, discountRate := max 0 (min (1/2) p.discountRate) }

/-- An empty, fully writable store. -/
def emptyStorage : Storage :=
  { data := fun _ => none, fail := fun _ => false }

/-- A store holding only the two legacy keys (no v2 envelope), as an
older version of the app would have left it. -/
def legacyOnlyStorage : Storage :=
  { data := fun k =>
      if k = CART_STORAGE_KEY_V1 then some (encodeItems exampleCart)
      else if k = PROMO_STORAGE_KEY_V1 then some (encodePromo noPromo)
      else none,
    fail := fun _ => false }

/-- A candidate with a string `id` but no numeric `price` field. -/
def priceLessCandidate : JsValue :=
  .obj [("id", .str "x"), ("name", .str "Pizza")]

/-- A hand-edited legacy store whose single item has quantity 0. -/
def badQuantityStorage : Storage :=
  { data := fun k =>
      if k = CART_STORAGE_KEY_V1 then
        some (.arr [.obj [("itemId", .str "x"), ("quantity", .num 0)]])
      else none,
    fail := fun _ => false }

/-- The line that `badQuantityStorage` loads into: quantity 0 survives
sanitization. -/
def badQuantityLine : CartLine :=
  { itemId := "x", name := "", unitPrice := 0, quantity := 0, notes := "" }

/-- One cart mutation, as dispatched by the cart provider's actions. -/
inductive CartOp where
  | add : JsValue → CartOp
  | inc : String → CartOp
  | dec : String → CartOp
  | rem : String → CartOp

/-- Dispatch one cart operation. -/
def applyOp (op : CartOp) (items : List RawLine) : List RawLine :=
  match op with
  | .add m => addItem m items
  | .inc i => incrementItem i items
  | .dec i => decrementItem i items
  | .rem i => removeItem i items

/-- Apply a sequence of cart operations in order. -/
def applyOps (ops : List CartOp) (items : List RawLine) : List RawLine :=
  ops.foldl (fun its op => applyOp op its) items

/-- The reachable-cart invariant: every line's quantity is a natural
number ≥ 1 and no two lines share an `itemId`. -/
def CartInv (items : List RawLine) : Prop :=
  (∀ l ∈ items, ∃ n : ℕ, 1 ≤ n ∧ l.quantity = (n : ℚ)) ∧
  (items.map RawLine.itemId).Nodup

/-! ### Helper lemmas -/

/-- A left fold that adds `f x` at each step computes the initial value
plus the sum of the mapped list. -/
theorem foldl_add_map {α : Type} (f : α → ℚ) :
    ∀ (l : List α) (a : ℚ),
      l.foldl (fun s x => s + f x) a = a + (l.map f).sum := by
  intro l
  induction l with
  | nil => intro a; simp
  | cons x xs ih =>
    intro a
    simp only [List.foldl_cons, List.map_cons, List.sum_cons, ih]
    ring

/-- The subtotal is the sum of the per-line `quantity * unitPrice`. -/
theorem subtotal_eq_sum (items : List CartLine) :
    subtotal items = (items.map fun it => it.quantity * it.unitPrice).sum := by
  simpa using foldl_add_map (fun it : CartLine => it.quantity * it.unitPrice) items 0

/-- On carts of the data model (non-negative prices and quantities) the
subtotal is non-negative. -/
theorem subtotal_nonneg (items : List CartLine)
    (h : ∀ l ∈ items, 0 ≤ l.unitPrice ∧ 0 ≤ l.quantity) :
    0 ≤ subtotal items := by
  rw [subtotal_eq_sum]
  apply List.sum_nonneg
  intro x hx
  rcases List.mem_map.mp hx with ⟨l, hl, rfl⟩
  exact mul_nonneg (h l hl).2 (h l hl).1

/-- C1: for every data-model cart, the pricing breakdown satisfies the
spec's componentwise formulas — subtotal is the sum of
quantity × unitPrice; promoDiscount = subtotal × discountRate;
serviceFee is 0 on an empty subtotal and otherwise
clamp(subtotal × 0.08, 1.25, 3.50); deliveryFee is 2.99 exactly when
subtotal > 0; tax is 0.0825 × max(0, subtotal − promoDiscount); total is
their sum — and the spec's concrete examples hold: the one-line cart at
unit price 10, quantity 2 with no promo prices at subtotal 20,
serviceFee 1.6, deliveryFee 2.99, tax 1.65, total 26.24, and the empty
cart prices at 0 in every component. -/
theorem C1_pricing_breakdown (items : List CartLine) (promo : Promo)
    (h : ∀ l ∈ items, 0 ≤ l.unitPrice ∧ 0 ≤ l.quantity) :
    subtotal items = (items.map fun it => it.quantity * it.unitPrice).sum ∧
    promoDiscount items promo = subtotal items * promo.discountRate ∧
    serviceFee items =
      (if subtotal items = 0 then 0
       else max (1.25 : ℚ) (min 3.5 (subtotal items * 0.08))) ∧
    deliveryFee items = (if subtotal items > 0 then (2.99 : ℚ) else 0) ∧
    tax items promo =
      (0.0825 : ℚ) * max 0 (subtotal items - promoDiscount items promo) ∧
    total items promo =
      subtotal items - promoDiscount items promo + serviceFee items +
        deliveryFee items + tax items promo ∧
    subtotal exampleCart = 20 ∧
    promoDiscount exampleCart noPromo = 0 ∧
    serviceFee exampleCart = 1.6 ∧
    deliveryFee exampleCart = 2.99 ∧
    tax exampleCart noPromo = 1.65 ∧
    total exampleCart noPromo = 26.24 ∧
    subtotal [] = 0 ∧ promoDiscount [] promo = 0 ∧ serviceFee [] = 0 ∧
    deliveryFee [] = 0 ∧ tax [] promo = 0 ∧ total [] promo = 0 := by
  have hsub := subtotal_nonneg items h
  refine ⟨subtotal_eq_sum items, rfl, ?_, ?_, ?_, rfl, ?_⟩
  · -- serviceFee: the code tests `subtotal > 0`, the spec `subtotal == 0`;
    -- these agree on non-negative subtotals, and the two clamp forms are
    -- equal by distributing min over max (1.25 ≤ 3.5).
    rcases lt_or_eq_of_le hsub with hpos | hzero
    · rw [serviceFee, if_pos hpos, if_neg (ne_of_gt hpos), min_max_distrib_left]
      norm_num
    · rw [serviceFee, if_neg (by rw [← hzero]; exact lt_irrefl 0), if_pos hzero.symm]
  · norm_num [deliveryFee]
  · -- tax: `taxable > 0 ? taxable * 0.0825 : 0` agrees with
    -- `0.0825 * max 0 taxable` because the guard only excludes taxable = 0.
    rw [tax]
    rcases le_or_lt (subtotal items - promoDiscount items promo) 0 with hle | hpos
    · rw [max_eq_left hle]
      simp
    · rw [max_eq_right (le_of_lt hpos), if_pos hpos, mul_comm]
      norm_num
  · norm_num [exampleCart, noPromo, subtotal, promoDiscount, serviceFee,
      deliveryFee, tax, total]

/-- Witness for C1 at the spec's concrete example cart. -/
theorem C1_pricing_breakdown_witness :
    subtotal exampleCart = 20 :=
  (C1_pricing_breakdown exampleCart noPromo (by decide)).2.2.2.2.2.2.1

/-- C4: the promo discount rate lies in [0, 0.5] after sanitization
(hence after every load) and after every `applyPromo`, whatever the
input; in particular a stored rate of 0.9 is clamped to 0.5. -/
theorem C4_promo_rate_clamped :
    (∀ v : JsValue, 0 ≤ (sanitizePromo v).discountRate ∧
      (sanitizePromo v).discountRate ≤ 1/2) ∧
    (∀ st : Storage, 0 ≤ (loadCartState st).2.discountRate ∧
      (loadCartState st).2.discountRate ≤ 1/2) ∧
    (∀ raw : String, 0 ≤ (applyPromo raw).discountRate ∧
      (applyPromo raw).discountRate ≤ 1/2) ∧
    sanitizePromo (.obj [("code", .str "MEGA"), ("discountRate", .num (9/10))])
      = { code := "MEGA", discountRate := 1/2 } := by
  have hsan : ∀ v : JsValue, 0 ≤ (sanitizePromo v).discountRate ∧
      (sanitizePromo v).discountRate ≤ 1/2 := by
    intro v
    rw [sanitizePromo]
    rcases isPlainObject v with _ | _
    · simp
    · simp only [if_pos]
      constructor
      · exact le_max_left 0 _
      · exact max_le (by norm_num) (min_le_left _ _)
  refine ⟨hsan, ?_, ?_, ?_⟩
  · intro st
    rw [loadCartState]
    rcases safeStorageGet st CART_STORAGE_KEY_V2 with _ | parsed
    · rw [loadCartStateLegacy]
      rcases safeStorageGet st PROMO_STORAGE_KEY_V1 with _ | v
      · norm_num
      · exact hsan v
    · dsimp only
      split
      · exact hsan _
      · rw [loadCartStateLegacy]
        rcases safeStorageGet st PROMO_STORAGE_KEY_V1 with _ | v
        · norm_num
        · exact hsan v
  · intro raw
    rw [applyPromo, computePromoFromCode]
    split
    · norm_num
    · split
      · norm_num
      · norm_num
  · have h : max (0:ℚ) (min (1/2) (9/10)) = 1/2 := by norm_num
    show ({ code := "MEGA", discountRate := max 0 (min (1/2) (9/10)) } : Promo)
      = { code := "MEGA", discountRate := 1/2 }
    rw [h]

/-- The status a tick installs is always the elapsed-derived one: on the
no-update path the previous status already equals it. -/
theorem tickOrder_status (prev : TrackedOrder) (now : ℤ) :
    (tickOrder prev now).1.status = statusOf (now - prev.createdAt) := by
  rw [tickOrder]
  split
  · rename_i h
    exact h.1.symm
  · rfl

/-- The progress a tick installs is always the elapsed-derived one. -/
theorem tickOrder_progress (prev : TrackedOrder) (now : ℤ) :
    (tickOrder prev now).1.progress = progressOf (now - prev.createdAt) := by
  rw [tickOrder]
  split
  · rename_i h
    exact h.2.symm
  · rfl

/-- A tick never touches `createdAt`. -/
theorem tickOrder_createdAt (prev : TrackedOrder) (now : ℤ) :
    (tickOrder prev now).1.createdAt = prev.createdAt := by
  rw [tickOrder]
  split
  · rfl
  · rfl

/-- The elapsed-derived status is never `Cancelled`. -/
theorem statusOf_ne_Cancelled (elapsed : ℤ) :
    statusOf elapsed ≠ OrderStatus.Cancelled := by
  rw [statusOf]
  split
  · exact fun h => by cases h
  · split
    · exact fun h => by cases h
    · split
      · exact fun h => by cases h
      · exact fun h => by cases h

/-- C2: a tracking tick recomputes status and progress purely from
`elapsed = now − createdAt`: status is Confirmed below 30 s, Preparing
from 30 s to 75 s, Out for delivery from 75 s to 120 s and Delivered
from 120 s on, and progress is `clamp(round(elapsed / 120000 × 100), 0,
100)`; in particular a tick at `t0+31s` on an order created at `t0`
yields Preparing and a tick at `t0+121s` yields Delivered with progress
100. -/
theorem C2_tick_transition (prev : TrackedOrder) (now t0 : ℤ) :
    (tickOrder prev now).1.status = statusOf (now - prev.createdAt) ∧
    (tickOrder prev now).1.progress = progressOf (now - prev.createdAt) ∧
    (now - prev.createdAt < 30000 →
      (tickOrder prev now).1.status = OrderStatus.Confirmed) ∧
    (30000 ≤ now - prev.createdAt → now - prev.createdAt < 75000 →
      (tickOrder prev now).1.status = OrderStatus.Preparing) ∧
    (75000 ≤ now - prev.createdAt → now - prev.createdAt < 120000 →
      (tickOrder prev now).1.status = OrderStatus.OutForDelivery) ∧
    (120000 ≤ now - prev.createdAt →
      (tickOrder prev now).1.status = OrderStatus.Delivered) ∧
    progressOf (now - prev.createdAt) =
      clamp (jsRound (((now - prev.createdAt : ℤ) : ℚ) / 120000 * 100)) 0 100 ∧
    (prev.createdAt = t0 →
      (tickOrder prev (t0 + 31000)).1.status = OrderStatus.Preparing ∧
      (tickOrder prev (t0 + 121000)).1.status = OrderStatus.Delivered ∧
      (tickOrder prev (t0 + 121000)).1.progress = 100) := by
  refine ⟨tickOrder_status prev now, tickOrder_progress prev now,
    ?_, ?_, ?_, ?_, rfl, ?_⟩
  · intro h
    rw [tickOrder_status, statusOf, if_pos h]
  · intro h1 h2
    rw [tickOrder_status, statusOf, if_neg (by omega), if_pos h2]
  · intro h1 h2
    rw [tickOrder_status, statusOf, if_neg (by omega), if_neg (by omega),
      if_pos h2]
  · intro h
    rw [tickOrder_status, statusOf, if_neg (by omega), if_neg (by omega),
      if_neg (by omega)]
  · intro ht0
    have h31 : t0 + 31000 - prev.createdAt = 31000 := by omega
    have h121 : t0 + 121000 - prev.createdAt = 121000 := by omega
    refine ⟨?_, ?_, ?_⟩
    · rw [tickOrder_status, h31]
      decide
    · rw [tickOrder_status, h121]
      decide
    · rw [tickOrder_progress, h121, progressOf]
      norm_num [jsRound, clamp]

/-- Witness for C2: a tick at `t0+31s` on an order created at `t0 = 0`
yields status Preparing. -/
theorem C2_tick_transition_witness :
    (tickOrder { createdAt := 0, status := .Confirmed, progress := 3 }
      31000).1.status = OrderStatus.Preparing :=
  (C2_tick_transition { createdAt := 0, status := .Confirmed, progress := 3 }
    31000 0).2.2.2.1 (by decide) (by decide)

/-- C9: reaching Delivered or Cancelled deactivates the timer and a step
of the simulation leaves a terminal order untouched; while the timer is
active, a tick whose recomputed status and progress both equal the
previous values returns the previous object with no update emitted; and
no tick ever installs the status Cancelled. -/
theorem C9_terminal_and_idempotent :
    (∀ (ord : TrackedOrder) (now : ℤ),
      ord.status = OrderStatus.Delivered ∨ ord.status = OrderStatus.Cancelled →
      timerActive (some ord) = false ∧ trackStep (some ord) now = some ord) ∧
    (∀ (prev : TrackedOrder) (now : ℤ), timerActive (some prev) = true →
      statusOf (now - prev.createdAt) = prev.status →
      progressOf (now - prev.createdAt) = prev.progress →
      tickOrder prev now = (prev, false)) ∧
    (∀ (prev : TrackedOrder) (now : ℤ),
      (tickOrder prev now).1.status ≠ OrderStatus.Cancelled) := by
  refine ⟨?_, ?_, ?_⟩
  · intro ord now h
    have hta : timerActive (some ord) = false := by
      rw [timerActive]
      rcases h with h | h <;> simp [h]
    refine ⟨hta, ?_⟩
    rw [trackStep, hta]
    simp
  · intro prev now hta hs hp
    simp only [tickOrder]
    rw [if_pos ⟨hs, hp⟩]
  · intro prev now
    rw [tickOrder_status]
    exact statusOf_ne_Cancelled _

/-- Witness for C9: a step on a Delivered order leaves it untouched. -/
theorem C9_terminal_and_idempotent_witness :
    trackStep (some deliveredOrder) 999999 = some deliveredOrder :=
  (C9_terminal_and_idempotent.1 deliveredOrder 999999 (Or.inl rfl)).2

/-- C10: the status a tick computes depends on the previous order only
through `createdAt` (it is the elapsed-derived status, never the
previous status), so a stored order whose status is ahead of its elapsed
time is moved backwards: a non-terminal order marked Out for delivery
with only 10 s elapsed ticks back to Confirmed. -/
theorem C10_status_pure_in_elapsed :
    (∀ (prev : TrackedOrder) (now : ℤ),
      (tickOrder prev now).1.status = statusOf (now - prev.createdAt)) ∧
    (∀ (prev prev2 : TrackedOrder) (now : ℤ),
      prev.createdAt = prev2.createdAt →
      (tickOrder prev now).1.status = (tickOrder prev2 now).1.status) ∧
    timerActive (some aheadOrder) = true ∧
    (tickOrder aheadOrder 10000).1.status = OrderStatus.Confirmed := by
  refine ⟨tickOrder_status, ?_, rfl, ?_⟩
  · intro prev prev2 now h
    rw [tickOrder_status, tickOrder_status, h]
  · rw [tickOrder_status]
    decide

/-- Witness for C10: two orders with the same `createdAt` but different
previous statuses tick to the same status. -/
theorem C10_status_pure_in_elapsed_witness :
    (tickOrder { createdAt := 5, status := OrderStatus.Confirmed, progress := 3 } 31005).1.status
      = (tickOrder { createdAt := 5, status := OrderStatus.OutForDelivery, progress := 80 } 31005).1.status :=
  C10_status_pure_in_elapsed.2.1
    { createdAt := 5, status := OrderStatus.Confirmed, progress := 3 }
    { createdAt := 5, status := OrderStatus.OutForDelivery, progress := 80 }
    31005 rfl

/-- A failed or foreign-key write leaves the value stored under any
other key unchanged. -/
theorem safeStorageSet_data_ne (st : Storage) (k k2 : String) (v : JsValue)
    (h : k2 ≠ k) : (safeStorageSet st k v).1.data k2 = st.data k2 := by
  rw [safeStorageSet]
  split
  · rfl
  · exact if_neg h

/-- A write to a non-throwing key stores the value under that key. -/
theorem safeStorageSet_data_self (st : Storage) (k : String) (v : JsValue)
    (h : st.fail k = false) : (safeStorageSet st k v).1.data k = some v := by
  rw [safeStorageSet, if_neg (by rw [h]; exact Bool.false_ne_true)]
  exact if_pos rfl

/-- Writes never change which keys throw. -/
theorem safeStorageSet_fail (st : Storage) (k : String) (v : JsValue) :
    (safeStorageSet st k v).1.fail = st.fail := by
  rw [safeStorageSet]
  split
  · rfl
  · rfl

/-- C6: the persistence effect writes the two legacy keys only when the
v2 envelope write succeeded (on a v2 failure neither legacy key nor the
last-persisted cache changes); a payload byte-identical to the last
successfully persisted one skips the write entirely, leaving storage and
cache untouched; and the last-written cache is process-local, so with
the fresh-process cache the effect always attempts a write, and lands
the envelope whenever the v2 key does not throw. -/
theorem C6_save_algorithm (cache : PersistCache) (st : Storage)
    (items : List CartLine) (promo : Promo) (now : ℤ) :
    (st.fail CART_STORAGE_KEY_V2 = true →
      (saveCart cache st items promo now).storage.data CART_STORAGE_KEY_V1
          = st.data CART_STORAGE_KEY_V1 ∧
      (saveCart cache st items promo now).storage.data PROMO_STORAGE_KEY_V1
          = st.data PROMO_STORAGE_KEY_V1 ∧
      (saveCart cache st items promo now).cache = cache) ∧
    (cache.last = some (items, promo, now) →
      saveCart cache st items promo now
        = { cache := cache, storage := st, attempted := false }) ∧
    (saveCart initPersistCache st items promo now).attempted = true ∧
    (st.fail CART_STORAGE_KEY_V2 = false →
      (saveCart initPersistCache st items promo now).storage.data
          CART_STORAGE_KEY_V2 = some (encodeEnvelope items promo now)) := by
  refine ⟨?_, ?_, ?_, ?_⟩
  · intro hfail
    rw [saveCart]
    split
    · exact ⟨rfl, rfl, rfl⟩
    · rw [safeStorageSet, if_pos hfail]
      exact ⟨rfl, rfl, rfl⟩
  · intro hlast
    rw [saveCart, if_pos hlast]
  · rw [saveCart, if_neg (by rw [initPersistCache]; exact fun h => Option.noConfusion h)]
    rcases hfv2 : st.fail CART_STORAGE_KEY_V2 with _ | _
    · rw [safeStorageSet, if_neg (by rw [hfv2]; exact Bool.false_ne_true)]
      rfl
    · rw [safeStorageSet, if_pos hfv2]
      rfl
  · intro hok
    rw [saveCart, if_neg (by rw [initPersistCache]; exact fun h => Option.noConfusion h)]
    rw [safeStorageSet, if_neg (by rw [hok]; exact Bool.false_ne_true)]
    dsimp only
    rw [if_pos rfl]
    dsimp only
    rw [safeStorageSet_data_ne _ _ CART_STORAGE_KEY_V2 _ (by decide),
        safeStorageSet_data_ne _ _ CART_STORAGE_KEY_V2 _ (by decide)]
    dsimp only
    rw [if_pos rfl]

/-- Witness for C6: a payload equal to the cached one skips the write. -/
theorem C6_save_algorithm_witness :
    saveCart { last := some ([], noPromo, 0) } emptyStorage [] noPromo 0
      = { cache := { last := some ([], noPromo, 0) },
          storage := emptyStorage, attempted := false } :=
  (C6_save_algorithm { last := some ([], noPromo, 0) } emptyStorage []
    noPromo 0).2.1 rfl

/-- Sanitization is the identity on serialized sanitized lines: every
field survives the encode/sanitize round trip unchanged. -/
theorem sanitizeItems_encodeItems (items : List CartLine) :
    sanitizeItems (encodeItems items) = items := by
  induction items with
  | nil => rfl
  | cons l ls ih =>
    have h1 : sanitizeItems (encodeItems (l :: ls))
        = l :: sanitizeItems (encodeItems ls) := rfl
    rw [h1, ih]

/-- Sanitizing a serialized promo clamps the rate and keeps the code. -/
theorem sanitizePromo_encodePromo (p : Promo) :
    sanitizePromo (encodePromo p) = promoClamp p := rfl

/-- Loading a store whose current-version key holds a v2 envelope (and
does not throw) yields the envelope's sanitized contents. -/
theorem loadCartState_of_envelope (st : Storage) (items : List CartLine)
    (promo : Promo) (now : ℤ)
    (hd : st.data CART_STORAGE_KEY_V2 = some (encodeEnvelope items promo now))
    (hf : st.fail CART_STORAGE_KEY_V2 = false) :
    loadCartState st = (items, promoClamp promo) := by
  rw [loadCartState, safeStorageGet, if_neg (by rw [hf]; exact Bool.false_ne_true), hd]
  dsimp only
  have hc : (isPlainObject (encodeEnvelope items promo now) &&
      match jsGet (encodeEnvelope items promo now) "version" with
      | JsValue.num v => v == 2
      | _ => false) = true := rfl
  rw [if_pos hc]
  show (sanitizeItems (encodeItems items), sanitizePromo (encodePromo promo)) = _
  rw [sanitizeItems_encodeItems, sanitizePromo_encodePromo]

/-- C5: a successful save followed by a load returns the pair up to
sanitization — the items exactly, the promo with its rate clamped (so
exactly, whenever the rate was already in range); and a store holding
only the two legacy keys loads into the very same shape as the native v2
envelope left by the save. -/
theorem C5_roundtrip_and_migration (cache : PersistCache) (st st2 : Storage)
    (items : List CartLine) (promo : Promo) (now : ℤ)
    (hok : st.fail CART_STORAGE_KEY_V2 = false)
    (hfresh : cache.last ≠ some (items, promo, now))
    (hv2 : st2.data CART_STORAGE_KEY_V2 = none)
    (hf1 : st2.fail CART_STORAGE_KEY_V1 = false)
    (hf2 : st2.fail PROMO_STORAGE_KEY_V1 = false)
    (hd1 : st2.data CART_STORAGE_KEY_V1 = some (encodeItems items))
    (hd2 : st2.data PROMO_STORAGE_KEY_V1 = some (encodePromo promo)) :
    loadCartState (saveCart cache st items promo now).storage
      = (items, promoClamp promo) ∧
    loadCartState st2 = (items, promoClamp promo) ∧
    (0 ≤ promo.discountRate → promo.discountRate ≤ 1/2 →
      promoClamp promo = promo) ∧
    loadCartState (saveCart cache st items promo now).storage
      = loadCartState st2 := by
  have hround : loadCartState (saveCart cache st items promo now).storage
      = (items, promoClamp promo) := by
    have hdata : (saveCart cache st items promo now).storage.data
        CART_STORAGE_KEY_V2 = some (encodeEnvelope items promo now) := by
      rw [saveCart, if_neg hfresh, safeStorageSet,
        if_neg (by rw [hok]; exact Bool.false_ne_true)]
      dsimp only
      rw [if_pos rfl]
      dsimp only
      rw [safeStorageSet_data_ne _ _ CART_STORAGE_KEY_V2 _ (by decide),
          safeStorageSet_data_ne _ _ CART_STORAGE_KEY_V2 _ (by decide)]
      dsimp only
      rw [if_pos rfl]
    have hfail : (saveCart cache st items promo now).storage.fail
        CART_STORAGE_KEY_V2 = false := by
      rw [saveCart, if_neg hfresh, safeStorageSet,
        if_neg (by rw [hok]; exact Bool.false_ne_true)]
      dsimp only
      rw [if_pos rfl]
      dsimp only
      rw [safeStorageSet_fail, safeStorageSet_fail]
      exact hok
    exact loadCartState_of_envelope _ items promo now hdata hfail
  have hmig : loadCartState st2 = (items, promoClamp promo) := by
    have hget : safeStorageGet st2 CART_STORAGE_KEY_V2 = none := by
      rw [safeStorageGet]
      split
      · rfl
      · exact hv2
    rw [loadCartState, hget, loadCartStateLegacy, safeStorageGet,
      if_neg (by rw [hf1]; exact Bool.false_ne_true), hd1, safeStorageGet,
      if_neg (by rw [hf2]; exact Bool.false_ne_true), hd2]
    dsimp only
    rw [sanitizeItems_encodeItems, sanitizePromo_encodePromo]
  refine ⟨hround, hmig, ?_, by rw [hround, hmig]⟩
  intro h0 h12
  rcases promo with ⟨c, r⟩
  rw [promoClamp]
  dsimp only at h0 h12 ⊢
  rw [min_eq_right h12, max_eq_right h0]

/-- Witness for C5: the legacy-only store loads into the example cart
with the clamped empty promo. -/
theorem C5_roundtrip_and_migration_witness :
    loadCartState legacyOnlyStorage = (exampleCart, promoClamp noPromo) :=
  (C5_roundtrip_and_migration initPersistCache emptyStorage legacyOnlyStorage
    exampleCart noPromo 0 rfl (fun h => Option.noConfusion h)
    rfl rfl rfl rfl rfl).2.1

/-- C3 counterexample: `addItem` does not validate the price. The
candidate `{id:"x", name:"Pizza"}` lacks a numeric price, yet adding it
to an empty cart is not a no-op — a line is appended (with an undefined
unit price), so the claim's "no-op whenever the candidate lacks a
numeric price" is false on the code. -/
theorem C3_counterexample :
    jsTypeof (jsGet priceLessCandidate "price") ≠ "number" ∧
    addItem priceLessCandidate [] ≠ [] := by
  constructor
  · decide
  · intro h
    have h2 : addItem priceLessCandidate []
        = [{ itemId := "x", name := JsValue.str "Pizza",
             unitPrice := JsValue.undefined, quantity := 1, notes := "" }] := rfl
    rw [h2] at h
    exact List.cons_ne_nil _ _ h

/-- C3 amended: `addItem` is a no-op exactly on falsy candidates and
candidates whose `id` is not a string (the price is never validated);
with a string id matching an existing line it increments only that
line's quantity, leaving `itemId`, `name`, `unitPrice` and `notes` of
every line unchanged; with a fresh id it appends a quantity-1 line whose
name and unit price are copied verbatim from the candidate. -/
theorem C3_addItem_amended (menuItem : JsValue) (prev : List RawLine) :
    (jsTruthy menuItem = false ∨ jsTypeof (jsGet menuItem "id") ≠ "string" →
      addItem menuItem prev = prev) ∧
    (∀ id : String, jsGet menuItem "id" = JsValue.str id →
      ((∃ p ∈ prev, p.itemId = id) →
        addItem menuItem prev = prev.map fun p =>
          if p.itemId = id then { p with quantity := p.quantity + 1 } else p) ∧
      ((∀ p ∈ prev, p.itemId ≠ id) →
        addItem menuItem prev
          = prev ++ [{ itemId := id, name := jsGet menuItem "name",
                       unitPrice := jsGet menuItem "price", quantity := 1,
                       notes := "" }])) := by
  constructor
  · intro h
    rcases h with h | h
    · have hc : (!jsTruthy menuItem
          || jsTypeof (jsGet menuItem "id") != "string") = true := by
        rw [h]
        rfl
      rw [addItem, if_pos hc]
    · have hc : (!jsTruthy menuItem
          || jsTypeof (jsGet menuItem "id") != "string") = true := by
        rw [Bool.or_eq_true]
        exact Or.inr (bne_iff_ne.mpr h)
      rw [addItem, if_pos hc]
  · intro id hid
    have htruthy : jsTruthy menuItem = true := by
      cases menuItem <;>
        first
        | rfl
        | exact absurd hid (fun h => JsValue.noConfusion h)
    have htype : jsTypeof (jsGet menuItem "id") = "string" := by
      rw [hid]
      rfl
    have hguard : ¬ ((!jsTruthy menuItem
        || jsTypeof (jsGet menuItem "id") != "string") = true) := by
      rw [htruthy, htype]
      exact Bool.false_ne_true
    have hstr : jsStrOr (jsGet menuItem "id") "" = id := by
      rw [hid]
      rfl
    constructor
    · intro hex
      rw [addItem, if_neg hguard]
      dsimp only
      rw [hstr]
      rcases hfind : prev.find? (fun p => p.itemId = id) with _ | q
      · rcases hex with ⟨p, hp, hpid⟩
        have := List.find?_eq_none.mp hfind p hp
        simp [hpid] at this
      · rw [hfind]
    · intro hnone
      rw [addItem, if_neg hguard]
      dsimp only
      rw [hstr]
      rcases hfind : prev.find? (fun p => p.itemId = id) with _ | q
      · rw [hfind]
      · have hq := List.find?_some hfind
        have hqm := List.mem_of_find?_eq_some hfind
        simp at hq
        exact absurd hq (hnone q hqm)

/-- Witness for the amended C3: adding the price-less candidate to an
empty cart appends a quantity-1 line copying its fields verbatim. -/
theorem C3_addItem_amended_witness :
    addItem priceLessCandidate []
      = [{ itemId := "x", name := jsGet priceLessCandidate "name",
           unitPrice := jsGet priceLessCandidate "price", quantity := 1,
           notes := "" }] :=
  ((C3_addItem_amended priceLessCandidate []).2 "x" rfl).2
    (fun p hp => absurd hp (List.not_mem_nil p))

/-- A value has `typeof` "string" exactly when it is a string. -/
theorem jsTypeof_eq_string_iff (v : JsValue) :
    jsTypeof v = "string" ↔ ∃ s, v = JsValue.str s := by
  cases v <;> simp [jsTypeof]

/-- C8 counterexample: sanitization only type-checks fields, it does not
enforce the ranges. A legacy store whose single item is
`{itemId:"x", quantity:0}` loads into a line with quantity 0 — not an
integer ≥ 1 — so the claim's data-model invariant is false on the code. -/
theorem C8_counterexample :
    (loadCartState badQuantityStorage).1 = [badQuantityLine] ∧
    ¬ (∀ l ∈ (loadCartState badQuantityStorage).1, 1 ≤ l.quantity) := by
  have h : (loadCartState badQuantityStorage).1 = [badQuantityLine] := rfl
  refine ⟨h, ?_⟩
  intro hall
  have h1 := hall badQuantityLine (h ▸ List.mem_singleton.mpr rfl)
  norm_num [badQuantityLine] at h1

/-- C8 amended: after sanitization every surfaced line is the fully
default-completed image of an input element whose `itemId` is a string —
`itemId`/`name`/`notes` strings, `unitPrice` a number defaulting to 0,
`quantity` a number defaulting to 1, so no partial line is surfaced and
elements without a string `itemId` are dropped — and conversely every
element passing the `itemId` check is surfaced; the numeric ranges
(`unitPrice ≥ 0`, `quantity` an integer ≥ 1) are not enforced. -/
theorem C8_sanitize_amended (v : JsValue) :
    (∀ l ∈ sanitizeItems v, ∃ xs it, v = JsValue.arr xs ∧ it ∈ xs ∧
      isPlainObject it = true ∧ jsGet it "itemId" = JsValue.str l.itemId ∧
      l.name = jsStrOr (jsGet it "name") "" ∧
      l.unitPrice = jsNumOr (jsGet it "unitPrice") 0 ∧
      l.quantity = jsNumOr (jsGet it "quantity") 1 ∧
      l.notes = jsStrOr (jsGet it "notes") "") ∧
    (∀ xs it, v = JsValue.arr xs → it ∈ xs → isPlainObject it = true →
      jsTypeof (jsGet it "itemId") = "string" →
      ({ itemId := jsStrOr (jsGet it "itemId") "",
         name := jsStrOr (jsGet it "name") "",
         unitPrice := jsNumOr (jsGet it "unitPrice") 0,
         quantity := jsNumOr (jsGet it "quantity") 1,
         notes := jsStrOr (jsGet it "notes") "" } : CartLine)
        ∈ sanitizeItems v) := by
  constructor
  · intro l hl
    cases v with
    | arr xs =>
      rw [sanitizeItems] at hl
      rcases List.mem_map.mp hl with ⟨it, hit, hconv⟩
      rcases List.mem_filter.mp hit with ⟨hmem, hok⟩
      rcases (Bool.and_eq_true _ _).mp hok with ⟨hobj, htype⟩
      have htype2 : jsTypeof (jsGet it "itemId") = "string" :=
        eq_of_beq htype
      rcases (jsTypeof_eq_string_iff _).mp htype2 with ⟨s, hs⟩
      subst hconv
      refine ⟨xs, it, rfl, hmem, hobj, ?_, rfl, rfl, rfl, rfl⟩
      rw [hs]
      rfl
    | undefined => exact absurd hl (List.not_mem_nil l)
    | null => exact absurd hl (List.not_mem_nil l)
    | bool b => exact absurd hl (List.not_mem_nil l)
    | num q => exact absurd hl (List.not_mem_nil l)
    | str s => exact absurd hl (List.not_mem_nil l)
    | obj fields => exact absurd hl (List.not_mem_nil l)
  · intro xs it hv hmem hobj htype
    subst hv
    rw [sanitizeItems]
    refine List.mem_map.mpr ⟨it, List.mem_filter.mpr ⟨hmem, ?_⟩, rfl⟩
    rw [hobj, htype]
    rfl

/-- Witness for the amended C8: the quantity-0 element passes the
`itemId` check and is surfaced with its fields default-completed. -/
theorem C8_sanitize_amended_witness :
    badQuantityLine ∈ sanitizeItems
      (JsValue.arr [JsValue.obj [("itemId", JsValue.str "x"),
        ("quantity", JsValue.num 0)]]) :=
  (C8_sanitize_amended
    (JsValue.arr [JsValue.obj [("itemId", JsValue.str "x"),
      ("quantity", JsValue.num 0)]])).2
    [JsValue.obj [("itemId", JsValue.str "x"), ("quantity", JsValue.num 0)]]
    (JsValue.obj [("itemId", JsValue.str "x"), ("quantity", JsValue.num 0)])
    rfl (List.mem_singleton.mpr rfl) rfl rfl

/-- Mapping an update that never touches `itemId` leaves the id list
unchanged. -/
theorem map_itemId_update (g : RawLine → RawLine)
    (h : ∀ p, (g p).itemId = p.itemId) (items : List RawLine) :
    (items.map g).map RawLine.itemId = items.map RawLine.itemId := by
  induction items with
  | nil => rfl
  | cons p ps ih =>
    simp only [List.map_cons, h, ih]

/-- The quantity-increment map of `addItem`/`incrementItem` preserves
the cart invariant. -/
theorem cartInv_map_incr (i : String) {items : List RawLine}
    (h : CartInv items) :
    CartInv (items.map fun p =>
      if p.itemId = i then { p with quantity := p.quantity + 1 } else p) := by
  obtain ⟨hq, hnd⟩ := h
  constructor
  · intro l hl
    rcases List.mem_map.mp hl with ⟨p, hp, rfl⟩
    rcases hq p hp with ⟨n, hn1, hnq⟩
    by_cases hpi : p.itemId = i
    · refine ⟨n + 1, by omega, ?_⟩
      rw [if_pos hpi]
      show p.quantity + 1 = ((n + 1 : ℕ) : ℚ)
      rw [hnq]
      push_cast
      ring
    · refine ⟨n, hn1, ?_⟩
      rw [if_neg hpi]
      exact hnq
  · rw [map_itemId_update]
    · exact hnd
    · intro p
      by_cases hpi : p.itemId = i <;> simp [hpi]

/-- Embeds `addItem` preserves the cart invariant. -/
theorem cartInv_addItem (m : JsValue) {items : List RawLine}
    (h : CartInv items) : CartInv (addItem m items) := by
  rw [addItem]
  split
  · exact h
  · dsimp only
    rcases hfind : items.find?
        (fun p => p.itemId = jsStrOr (jsGet m "id") "") with _ | q
    · rw [hfind]
      obtain ⟨hquant, hnd⟩ := h
      constructor
      · intro l hl
        rcases List.mem_append.mp hl with hl | hl
        · exact hquant l hl
        · rcases List.mem_singleton.mp hl with rfl
          exact ⟨1, le_refl 1, by norm_num⟩
      · rw [List.map_append]
        rw [List.nodup_append]
        refine ⟨hnd, List.nodup_singleton _, ?_⟩
        intro a ha hb
        rcases List.mem_map.mp ha with ⟨p, hp, rfl⟩
        have hne := List.find?_eq_none.mp hfind p hp
        simp only [decide_eq_true_eq] at hne
        exact hne (List.mem_singleton.mp hb)
    · rw [hfind]
      exact cartInv_map_incr _ h

/-- Embeds `incrementItem` preserves the cart invariant. -/
theorem cartInv_incrementItem (i : String) {items : List RawLine}
    (h : CartInv items) : CartInv (incrementItem i items) := by
  rw [incrementItem]
  exact cartInv_map_incr i h

/-- A filtered cart keeps the invariant. -/
theorem cartInv_filter (p : RawLine → Bool) {items : List RawLine}
    (h : CartInv items) : CartInv (items.filter p) := by
  obtain ⟨hq, hnd⟩ := h
  refine ⟨fun l hl => hq l (List.mem_of_mem_filter hl), ?_⟩
  exact hnd.sublist (List.Sublist.map _ (List.filter_sublist items))

/-- Embeds `removeItem` preserves the cart invariant. -/
theorem cartInv_removeItem (i : String) {items : List RawLine}
    (h : CartInv items) : CartInv (removeItem i items) := by
  rw [removeItem]
  exact cartInv_filter _ h

/-- Embeds `decrementItem` preserves the cart invariant. -/
theorem cartInv_decrementItem (i : String) {items : List RawLine}
    (h : CartInv items) : CartInv (decrementItem i items) := by
  rw [decrementItem]
  rcases hfind : items.find? (fun p => p.itemId = i) with _ | q
  · rw [hfind]
    exact h
  · rw [hfind]
    have hqi : q.itemId = i := by
      have := List.find?_some hfind
      simpa using this
    have hqm : q ∈ items := List.mem_of_find?_eq_some hfind
    obtain ⟨hquant, hnd⟩ := h
    show CartInv (if q.quantity ≤ 1 then
        items.filter (fun p => p.itemId ≠ i)
      else items.map fun p =>
        if p.itemId = i then { p with quantity := p.quantity - 1 } else p)
    by_cases hle : q.quantity ≤ 1
    · rw [if_pos hle]
      exact cartInv_filter _ ⟨hquant, hnd⟩
    · rw [if_neg hle]
      rcases hquant q hqm with ⟨n, hn1, hnq⟩
      have h2 : 2 ≤ n := by
        rw [hnq] at hle
        have h1n : (1 : ℚ) < (n : ℚ) := lt_of_not_le hle
        exact_mod_cast h1n
      constructor
      · intro l hl
        rcases List.mem_map.mp hl with ⟨p, hp, rfl⟩
        by_cases hpi : p.itemId = i
        · have hpq : p = q :=
            List.inj_on_of_nodup_map hnd hp hqm (by rw [hpi, hqi])
          refine ⟨n - 1, by omega, ?_⟩
          rw [if_pos hpi]
          show p.quantity - 1 = ((n - 1 : ℕ) : ℚ)
          rw [hpq, hnq]
          push_cast [Nat.cast_sub (by omega : 1 ≤ n)]
          ring
        · rcases hquant p hp with ⟨m, hm1, hmq⟩
          refine ⟨m, hm1, ?_⟩
          rw [if_neg hpi]
          exact hmq
      · rw [map_itemId_update]
        · exact hnd
        · intro p
          by_cases hpi : p.itemId = i <;> simp [hpi]

/-- Every operation preserves the cart invariant. -/
theorem cartInv_applyOp (op : CartOp) {items : List RawLine}
    (h : CartInv items) : CartInv (applyOp op items) := by
  cases op with
  | add m => exact cartInv_addItem m h
  | inc i => exact cartInv_incrementItem i h
  | dec i => exact cartInv_decrementItem i h
  | rem i => exact cartInv_removeItem i h

/-- Any operation sequence run from an invariant-satisfying cart lands
in an invariant-satisfying cart. -/
theorem cartInv_applyOps (ops : List CartOp) :
    ∀ items, CartInv items → CartInv (applyOps ops items) := by
  induction ops with
  | nil => intro items h; exact h
  | cons op ops ih =>
    intro items h
    exact ih (applyOp op items) (cartInv_applyOp op h)

/-- The empty cart satisfies the invariant. -/
theorem cartInv_nil : CartInv [] :=
  ⟨fun l hl => absurd hl (List.not_mem_nil l), List.nodup_nil⟩

/-- C7: for every operation sequence run from the empty cart,
`itemsCount` is the sum of the line quantities, every line's quantity is
positive, and no two lines share an `itemId`; moreover `decrementItem`
on an id not in a cart is a no-op, and on a reachable cart's quantity-1
line it removes that line. -/
theorem C7_cart_op_invariants (ops : List CartOp) :
    itemsCount (applyOps ops []) = ((applyOps ops []).map RawLine.quantity).sum ∧
    (∀ l ∈ applyOps ops [], 0 < l.quantity) ∧
    ((applyOps ops []).map RawLine.itemId).Nodup ∧
    (∀ (items : List RawLine) (i : String),
      (∀ l ∈ items, l.itemId ≠ i) → decrementItem i items = items) ∧
    (∀ l ∈ applyOps ops [], l.quantity = 1 →
      ∀ p ∈ decrementItem l.itemId (applyOps ops []), p.itemId ≠ l.itemId) := by
  obtain ⟨hq, hnd⟩ := cartInv_applyOps ops [] cartInv_nil
  refine ⟨?_, ?_, hnd, ?_, ?_⟩
  · simpa [itemsCount] using
      foldl_add_map RawLine.quantity (applyOps ops []) 0
  · intro l hl
    rcases hq l hl with ⟨n, hn1, hnq⟩
    rw [hnq]
    exact_mod_cast Nat.lt_of_lt_of_le Nat.zero_lt_one hn1
  · intro items i hnone
    rw [decrementItem]
    rcases hfind : items.find? (fun p => p.itemId = i) with _ | q
    · rw [hfind]
    · have hqi : q.itemId = i := by simpa using List.find?_some hfind
      exact absurd hqi (hnone q (List.mem_of_find?_eq_some hfind))
  · intro l hl hl1
    rcases hfind : (applyOps ops []).find?
        (fun p => p.itemId = l.itemId) with _ | q
    · have h2 := List.find?_eq_none.mp hfind l hl
      simp at h2
    · have hqi : q.itemId = l.itemId := by simpa using List.find?_some hfind
      have hqm := List.mem_of_find?_eq_some hfind
      have hql : q = l := List.inj_on_of_nodup_map hnd hqm hl hqi
      rw [decrementItem, hfind]
      show ∀ p ∈ (if q.quantity ≤ 1 then
          (applyOps ops []).filter (fun p => p.itemId ≠ l.itemId)
        else (applyOps ops []).map fun p =>
          if p.itemId = l.itemId then { p with quantity := p.quantity - 1 }
          else p), p.itemId ≠ l.itemId
      rw [if_pos (by rw [hql, hl1])]
      intro p hp
      have h3 := (List.mem_filter.mp hp).2
      simpa using h3

/-- Witness for C7 at the empty sequence: decrementing an id absent from
the empty cart is a no-op. -/
theorem C7_cart_op_invariants_witness : decrementItem "zzz" [] = [] :=
  (C7_cart_op_invariants []).2.2.2.1 [] "zzz"
    (fun l hl => absurd hl (List.not_mem_nil l))
